import Mathlib

/-!
Verification of the transaction ledger engine of the blockstock inventory
application (src/models/item.py, src/models/transaction.py,
src/services/inventory_service.py, src/database/connection.py).

Python floats holding quantities are modelled as exact rationals (ℚ);
all monetary amounts are integer cents (ℤ), as in the source.
The engine state is the per-item aggregate together with the transaction
ledger of that item and the autoincrement counter of the transactions
table; every engine operation touches a single item, so one item suffices.
-/

namespace BlockStock

/-- Python `int(x)`: truncation toward zero. -/
def pyTrunc (q : ℚ) : ℤ := if q < 0 then ⌈q⌉ else ⌊q⌋

/-- Python `round(x)` with no digits argument: round half to even
(banker's rounding), returning an integer. -/
def pyRound (q : ℚ) : ℤ :=
  let f : ℤ := ⌊q⌋
  let r : ℚ := q - (f : ℚ)
  if r < 1/2 then f
  else if 1/2 < r then f + 1
  else if f % 2 = 0 then f else f + 1

/-- The numeric aggregate state of one inventory item
(src/models/item.py, `InventoryItem`): current quantity on hand (a float
in the source, exact here) and the total cost basis in integer cents.
The identification fields (sku, name, category) play no role in the
ledger engine and are omitted. -/
structure InventoryItem where
  quantity_on_hand : ℚ
  total_cost_basis_cents : ℤ
deriving DecidableEq

/-- Model of `InventoryItem.current_unit_cost_cents` (src/models/item.py lines
40-53): 0 when `quantity_on_hand <= 0`, otherwise Python
`round(total_cost_basis_cents / quantity_on_hand)`. -/
def InventoryItem.current_unit_cost_cents (it : InventoryItem) : ℤ :=
  if it.quantity_on_hand ≤ 0 then 0
  else pyRound ((it.total_cost_basis_cents : ℚ) / it.quantity_on_hand)

/-- Model of `InventoryItem.can_distribute` (src/models/item.py lines 89-99):
`quantity_on_hand >= quantity`. -/
def InventoryItem.can_distribute (it : InventoryItem) (quantity : ℚ) : Bool :=
  decide (it.quantity_on_hand ≥ quantity)

/-- The typed failure kinds of the engine.  The source raises
`ValueError` with distinguishing messages; each constructor corresponds
to one family of raise sites. -/
inductive EngineError where
  | invalidInput
  | notFound
  | insufficientInventory
  | alreadyVoided
  | insufficientStockForVoid
  | unsupportedVoidType
deriving DecidableEq

/-- Model of `InventoryItem.calculate_purchase_state` (src/models/item.py lines
101-124): validates the input and returns the increased quantity and
cost basis. -/
def InventoryItem.calculate_purchase_state (it : InventoryItem)
    (quantity : ℚ) (total_cost_cents : ℤ) :
    Except EngineError (ℚ × ℤ) :=
  if quantity ≤ 0 then .error .invalidInput
  else if total_cost_cents < 0 then .error .invalidInput
  else .ok (it.quantity_on_hand + quantity,
            it.total_cost_basis_cents + total_cost_cents)

/-- Model of `InventoryItem.calculate_distribution_state` (src/models/item.py
lines 126-163): validates, computes COGS at the current weighted average
cost with `round()`, decrements quantity and basis, and floors the basis
at zero.  Returns `(new_quantity, new_total_cost_basis_cents, cogs_cents)`. -/
def InventoryItem.calculate_distribution_state (it : InventoryItem)
    (quantity : ℚ) : Except EngineError (ℚ × ℤ × ℤ) :=
  if quantity ≤ 0 then .error .invalidInput
  else if it.can_distribute quantity = false then .error .insufficientInventory
  else
    let unit_cost_cents := it.current_unit_cost_cents
    let cogs_cents := pyRound (quantity * (unit_cost_cents : ℚ))
    let new_quantity := it.quantity_on_hand - quantity
    let new_cost_basis := it.total_cost_basis_cents - cogs_cents
    let new_cost_basis := if new_cost_basis < 0 then 0 else new_cost_basis
    .ok (new_quantity, new_cost_basis, cogs_cents)

/-- Model of `TransactionType` (src/models/transaction.py lines 13-18). -/
inductive TransactionType where
  | PURCHASE
  | DONATION
  | DISTRIBUTION
  | CORRECTION
deriving DecidableEq

/-- Model of `ReasonCode` (src/models/transaction.py lines 21-26). -/
inductive ReasonCode where
  | CLIENT
  | SPOILAGE
  | INTERNAL
  | VOID
deriving DecidableEq

/-- One row of the `inventory_transactions` table
(src/models/transaction.py; column list and defaults from the table
definition in src/scripts/fix_constraints.py lines 39-58).  The default
values are the column DEFAULTs used when an INSERT omits the column.
Text columns (supplier, donor, notes, created_by) and the timestamp play
no role in the engine's arithmetic and are omitted. -/
structure Transaction where
  id : ℕ
  item_id : ℕ := 1
  transaction_type : TransactionType
  quantity_change : ℚ
  unit_cost_cents : ℤ := 0
  fair_market_value_cents : ℤ := 0
  total_financial_impact_cents : ℤ := 0
  reason_code : Option ReasonCode := none
  is_voided : Bool := false
  ref_transaction_id : Option ℕ := none
deriving DecidableEq

/-- The whole mutable database state seen by the engine for one item:
the `inventory_items` row, the `inventory_transactions` rows of that
item in insertion order, and the AUTOINCREMENT counter supplying the id
of the next inserted transaction. -/
structure EngineState where
  item : InventoryItem
  ledger : List Transaction
  nextTxId : ℕ
deriving DecidableEq

/-- Model of `InventoryService.create_item` (src/services/inventory_service.py
lines 36-79): a fresh item starts with the dataclass column defaults
`quantity_on_hand = 0`, `total_cost_basis_cents = 0`
(src/models/item.py lines 25-27), an empty ledger, and ids starting at 1. -/
def create_item : EngineState :=
  { item := ⟨0, 0⟩, ledger := [], nextTxId := 1 }

/-- Model of `InventoryService.process_purchase` (src/services/inventory_service.py
lines 268-346), acting on the database state inside the transaction
context.  Raises are returned as `.error` carrying the connection state
at the moment of the raise. -/
def process_purchase (quantity unit_cost_dollars : ℚ) (σ : EngineState) :
    Except (EngineError × EngineState) EngineState :=
  if quantity ≤ 0 then .error (.invalidInput, σ)
  else if unit_cost_dollars < 0 then .error (.invalidInput, σ)
  else
    let unit_cost_cents : ℤ := pyTrunc (unit_cost_dollars * 100)
    let total_cost_cents : ℤ := pyTrunc (quantity * (unit_cost_cents : ℚ))
    match σ.item.calculate_purchase_state quantity total_cost_cents with
    | .error e => .error (e, σ)
    | .ok (new_quantity, new_cost_basis) =>
      let tx : Transaction :=
        { id := σ.nextTxId, transaction_type := .PURCHASE,
          quantity_change := quantity, unit_cost_cents := unit_cost_cents }
      .ok { item := ⟨new_quantity, new_cost_basis⟩,
            ledger := σ.ledger ++ [tx],
            nextTxId := σ.nextTxId + 1 }

/-- Model of `InventoryService.process_donation` (src/services/inventory_service.py
lines 348-419): quantity increases, the cost basis is untouched, the row
records `unit_cost_cents = 0` and the total fair market value
`int(quantity * int(fair_market_value_dollars * 100))`. -/
def process_donation (quantity fair_market_value_dollars : ℚ)
    (σ : EngineState) : Except (EngineError × EngineState) EngineState :=
  if quantity ≤ 0 then .error (.invalidInput, σ)
  else
    let fmv_cents : ℤ := pyTrunc (fair_market_value_dollars * 100)
    let total_fmv_cents : ℤ := pyTrunc (quantity * (fmv_cents : ℚ))
    let new_quantity := σ.item.quantity_on_hand + quantity
    let tx : Transaction :=
      { id := σ.nextTxId, transaction_type := .DONATION,
        quantity_change := quantity, unit_cost_cents := 0,
        fair_market_value_cents := total_fmv_cents }
    .ok { item := ⟨new_quantity, σ.item.total_cost_basis_cents⟩,
          ledger := σ.ledger ++ [tx],
          nextTxId := σ.nextTxId + 1 }

/-- Model of `InventoryService.process_distribution` (src/services/inventory_service.py
lines 421-498): validates, delegates to
`calculate_distribution_state`, stores the pre-update unit cost and the
COGS (`total_financial_impact_cents`) on a row with negated quantity. -/
def process_distribution (quantity : ℚ) (reason_code : ReasonCode)
    (σ : EngineState) : Except (EngineError × EngineState) EngineState :=
  if quantity ≤ 0 then .error (.invalidInput, σ)
  else
    match σ.item.calculate_distribution_state quantity with
    | .error e => .error (e, σ)
    | .ok (new_quantity, new_cost_basis, total_financial_impact_cents) =>
      let unit_cost_cents := σ.item.current_unit_cost_cents
      let tx : Transaction :=
        { id := σ.nextTxId, transaction_type := .DISTRIBUTION,
          quantity_change := -quantity, unit_cost_cents := unit_cost_cents,
          total_financial_impact_cents := total_financial_impact_cents,
          reason_code := some reason_code }
      .ok { item := ⟨new_quantity, new_cost_basis⟩,
            ledger := σ.ledger ++ [tx],
            nextTxId := σ.nextTxId + 1 }

/-- Steps 4-6 of `InventoryService.void_transaction`
(src/services/inventory_service.py lines 662-710): floor the basis at
zero, write the item, insert the CORRECTION row (note that
`total_financial_impact_cents` is not among the inserted columns, so it
takes the column default 0), then set `is_voided = 1` on the row whose
id is `transaction_id`. -/
def apply_void_write (σ : EngineState) (transaction_id : ℕ)
    (original_tx : Transaction) (correction_qty new_qty : ℚ)
    (new_cost_basis : ℤ) : Except (EngineError × EngineState) EngineState :=
  let new_cost_basis := if new_cost_basis < 0 then 0 else new_cost_basis
  let correction : Transaction :=
    { id := σ.nextTxId, transaction_type := .CORRECTION,
      quantity_change := correction_qty,
      unit_cost_cents := original_tx.unit_cost_cents,
      reason_code := some .VOID,
      ref_transaction_id := some transaction_id }
  .ok { item := ⟨new_qty, new_cost_basis⟩,
        ledger := (σ.ledger ++ [correction]).map
          (fun t => if t.id = transaction_id then { t with is_voided := true } else t),
        nextTxId := σ.nextTxId + 1 }

/-- Model of `InventoryService.void_transaction` (src/services/inventory_service.py
lines 561-710): fetch the original row, reject a missing or already
voided one, branch on its type to compute the reversal, then apply the
writes. -/
def void_transaction (transaction_id : ℕ) (σ : EngineState) :
    Except (EngineError × EngineState) EngineState :=
  match σ.ledger.find? (fun t => t.id = transaction_id) with
  | none => .error (.notFound, σ)
  | some original_tx =>
    if original_tx.is_voided then .error (.alreadyVoided, σ)
    else
      match original_tx.transaction_type with
      | .PURCHASE =>
        if σ.item.quantity_on_hand < original_tx.quantity_change then
          .error (.insufficientStockForVoid, σ)
        else
          let value_to_remove : ℤ :=
            pyTrunc (original_tx.quantity_change * (original_tx.unit_cost_cents : ℚ))
          apply_void_write σ transaction_id original_tx
            (-original_tx.quantity_change)
            (σ.item.quantity_on_hand - original_tx.quantity_change)
            (σ.item.total_cost_basis_cents - value_to_remove)
      | .DONATION =>
        if σ.item.quantity_on_hand < original_tx.quantity_change then
          .error (.insufficientStockForVoid, σ)
        else
          apply_void_write σ transaction_id original_tx
            (-original_tx.quantity_change)
            (σ.item.quantity_on_hand - original_tx.quantity_change)
            σ.item.total_cost_basis_cents
      | .DISTRIBUTION =>
        let cogs_to_restore := original_tx.total_financial_impact_cents
        let qty_to_restore := |original_tx.quantity_change|
        apply_void_write σ transaction_id original_tx
          qty_to_restore
          (σ.item.quantity_on_hand + qty_to_restore)
          (σ.item.total_cost_basis_cents + cogs_to_restore)
      | .CORRECTION => .error (.unsupportedVoidType, σ)

/-- The write operations of the engine, each executed by the service as
one database transaction. -/
inductive EngineOp where
  | processPurchase (quantity unit_cost_dollars : ℚ)
  | processDonation (quantity fair_market_value_dollars : ℚ)
  | processDistribution (quantity : ℚ) (reason_code : ReasonCode)
  | voidTransaction (transaction_id : ℕ)

/-- Dispatch of an operation to its raw body (the code of the
`with self.db_manager.transaction() as conn:` block). -/
def rawStep : EngineOp → EngineState → Except (EngineError × EngineState) EngineState
  | .processPurchase q c, σ => process_purchase q c σ
  | .processDonation q f, σ => process_donation q f σ
  | .processDistribution q r, σ => process_distribution q r σ
  | .voidTransaction i, σ => void_transaction i σ

/-- Model of `DatabaseManager.transaction` (src/database/connection.py lines
61-78): commit the connection state on success, roll back to the entry
state when the body raises, re-raising the exception. -/
def db_transaction
    (body : EngineState → Except (EngineError × EngineState) EngineState)
    (σ : EngineState) : Except EngineError Unit × EngineState :=
  match body σ with
  | .ok σ₂ => (.ok (), σ₂)
  | .error (e, _) => (.error e, σ)

/-- An engine operation as observed by the caller: result plus the
database state after commit or rollback. -/
def execute (op : EngineOp) (σ : EngineState) :
    Except EngineError Unit × EngineState :=
  db_transaction (rawStep op) σ

/-- The successful-transition relation of the engine: the state after a
committed operation. -/
def step (op : EngineOp) (σ : EngineState) : Except EngineError EngineState :=
  match rawStep op σ with
  | .ok σ₂ => .ok σ₂
  | .error (e, _) => .error e

/-- The states reachable from a freshly created item by committed engine
operations. -/
inductive Reachable : EngineState → Prop
  | init : Reachable create_item
  | step (op : EngineOp) (σ σ₂ : EngineState) :
      Reachable σ → step op σ = .ok σ₂ → Reachable σ₂

/-- The documented item invariant: quantity and cost basis never
negative. -/
def ItemOK (σ : EngineState) : Prop :=
  0 ≤ σ.item.quantity_on_hand ∧ 0 ≤ σ.item.total_cost_basis_cents

/-- The `quantity_change` of the CORRECTION row inserted by
`void_transaction`, as computed in its type branch: negate a PURCHASE or
DONATION, restore the absolute quantity of a DISTRIBUTION. -/
def reversal_delta (t : Transaction) : ℚ :=
  match t.transaction_type with
  | .PURCHASE => -t.quantity_change
  | .DONATION => -t.quantity_change
  | .DISTRIBUTION => |t.quantity_change|
  | .CORRECTION => 0

/-- The state after one purchase of 1 unit at $0.02 on a fresh item:
1 unit on hand, 2 cents of basis. -/
def demo_purchase_state : EngineState :=
  ⟨⟨1, 2⟩,
   [{ id := 1, transaction_type := .PURCHASE, quantity_change := 1,
      unit_cost_cents := 2 }], 2⟩

/-- The state after purchasing 1 unit at $0.02 and 2 units at $0.01 and
then distributing all 3 units: COGS rounds to 3 of the 4 cents of basis,
leaving zero stock with one cent of basis stuck. -/
def residue_state : EngineState :=
  ⟨⟨0, 1⟩,
   [{ id := 1, transaction_type := .PURCHASE, quantity_change := 1,
      unit_cost_cents := 2 },
    { id := 2, transaction_type := .PURCHASE, quantity_change := 2,
      unit_cost_cents := 1 },
    { id := 3, transaction_type := .DISTRIBUTION, quantity_change := -3,
      unit_cost_cents := 1, total_financial_impact_cents := 3,
      reason_code := some .CLIENT }], 4⟩

/-! ### Arithmetic helper lemmas -/

theorem pyTrunc_nonneg {q : ℚ} (h : 0 ≤ q) : 0 ≤ pyTrunc q := by
  unfold pyTrunc
  rw [if_neg (not_lt.mpr h)]
  exact Int.floor_nonneg.mpr h

theorem pyRound_abs_le (q : ℚ) : |(pyRound q : ℚ) - q| ≤ 1/2 := by
  have h0 : (⌊q⌋ : ℚ) ≤ q := Int.floor_le q
  have h1 : q < (⌊q⌋ : ℚ) + 1 := Int.lt_floor_add_one q
  simp only [pyRound]
  split
  · rw [abs_le]; constructor <;> linarith
  · split
    · rw [abs_le]; push_cast; constructor <;> linarith
    · split
      · rw [abs_le]; constructor <;> linarith
      · rw [abs_le]; push_cast; constructor <;> linarith

theorem pyRound_tie_even (q : ℚ) (h : |(pyRound q : ℚ) - q| = 1/2) :
    pyRound q % 2 = 0 := by
  have h0 : (⌊q⌋ : ℚ) ≤ q := Int.floor_le q
  have h1 : q < (⌊q⌋ : ℚ) + 1 := Int.lt_floor_add_one q
  by_cases hc1 : q - (⌊q⌋ : ℚ) < 1/2
  · simp only [pyRound, if_pos hc1] at h ⊢
    rcases (abs_eq (by norm_num : (0:ℚ) ≤ 1/2)).mp h with h2 | h2 <;> linarith
  · by_cases hc2 : 1/2 < q - (⌊q⌋ : ℚ)
    · simp only [pyRound, if_neg hc1, if_pos hc2] at h ⊢
      rcases (abs_eq (by norm_num : (0:ℚ) ≤ 1/2)).mp h with h2 | h2 <;>
        push_cast at h2 <;> linarith
    · by_cases hc3 : ⌊q⌋ % 2 = 0
      · simp only [pyRound, if_neg hc1, if_neg hc2, if_pos hc3]
        exact hc3
      · simp only [pyRound, if_neg hc1, if_neg hc2, if_neg hc3]
        omega

theorem ite_lt_zero_eq_max (x : ℤ) : (if x < 0 then 0 else x) = max 0 x := by
  split <;> omega

theorem pyRound_nonneg {q : ℚ} (h : 0 ≤ q) : 0 ≤ pyRound q := by
  have h0 : (0:ℤ) ≤ ⌊q⌋ := Int.floor_nonneg.mpr h
  simp only [pyRound]
  split
  · exact h0
  · split
    · omega
    · split <;> omega

theorem current_unit_cost_cents_nonneg (it : InventoryItem)
    (hb : 0 ≤ it.total_cost_basis_cents) : 0 ≤ it.current_unit_cost_cents := by
  unfold InventoryItem.current_unit_cost_cents
  split
  · exact le_refl 0
  · rename_i hq
    exact pyRound_nonneg
      (div_nonneg (by exact_mod_cast hb) (le_of_lt (lt_of_not_le hq)))

theorem step_ok_iff (op : EngineOp) (σ σ₂ : EngineState) :
    step op σ = .ok σ₂ ↔ rawStep op σ = .ok σ₂ := by
  unfold step
  cases h : rawStep op σ <;> simp

/-! ### Shape of each operation -/


theorem process_purchase_ok_iff (q c : ℚ) (σ σ₂ : EngineState) :
    process_purchase q c σ = .ok σ₂ ↔
      ¬ q ≤ 0 ∧ ¬ c < 0 ∧
      ¬ pyTrunc (q * (pyTrunc (c * 100) : ℚ)) < 0 ∧
      σ₂ = { item := ⟨σ.item.quantity_on_hand + q,
                      σ.item.total_cost_basis_cents +
                        pyTrunc (q * (pyTrunc (c * 100) : ℚ))⟩,
             ledger := σ.ledger ++
               [{ id := σ.nextTxId, transaction_type := .PURCHASE,
                  quantity_change := q, unit_cost_cents := pyTrunc (c * 100) }],
             nextTxId := σ.nextTxId + 1 } := by
  unfold process_purchase InventoryItem.calculate_purchase_state
  by_cases h1 : q ≤ 0
  · simp [h1]
  · by_cases h2 : c < 0
    · simp [h1, h2]
    · by_cases h3 : pyTrunc (q * (pyTrunc (c * 100) : ℚ)) < 0
      · simp [h1, h2, h3]
      · simp [h1, h2, h3, eq_comm]

theorem process_donation_ok_iff (q f : ℚ) (σ σ₂ : EngineState) :
    process_donation q f σ = .ok σ₂ ↔
      ¬ q ≤ 0 ∧
      σ₂ = { item := ⟨σ.item.quantity_on_hand + q, σ.item.total_cost_basis_cents⟩,
             ledger := σ.ledger ++
               [{ id := σ.nextTxId, transaction_type := .DONATION,
                  quantity_change := q, unit_cost_cents := 0,
                  fair_market_value_cents := pyTrunc (q * (pyTrunc (f * 100) : ℚ)) }],
             nextTxId := σ.nextTxId + 1 } := by
  unfold process_donation
  by_cases h1 : q ≤ 0
  · simp [h1]
  · simp [h1, eq_comm]

theorem process_distribution_insufficient (q : ℚ) (r : ReasonCode)
    (σ : EngineState) (h : ¬ q ≤ 0) (hgt : σ.item.quantity_on_hand < q) :
    process_distribution q r σ = .error (.insufficientInventory, σ) := by
  have hcd : σ.item.can_distribute q = false := by
    simp [InventoryItem.can_distribute, not_le]; exact hgt
  unfold process_distribution InventoryItem.calculate_distribution_state
  simp [h, hcd]

theorem process_distribution_success (q : ℚ) (r : ReasonCode) (σ : EngineState)
    (h : ¬ q ≤ 0) (hle : q ≤ σ.item.quantity_on_hand) :
    process_distribution q r σ = .ok
      { item := ⟨σ.item.quantity_on_hand - q,
          if σ.item.total_cost_basis_cents -
              pyRound (q * (σ.item.current_unit_cost_cents : ℚ)) < 0 then 0
          else σ.item.total_cost_basis_cents -
              pyRound (q * (σ.item.current_unit_cost_cents : ℚ))⟩,
        ledger := σ.ledger ++
          [{ id := σ.nextTxId, transaction_type := .DISTRIBUTION,
             quantity_change := -q, unit_cost_cents := σ.item.current_unit_cost_cents,
             total_financial_impact_cents :=
               pyRound (q * (σ.item.current_unit_cost_cents : ℚ)),
             reason_code := some r }],
        nextTxId := σ.nextTxId + 1 } := by
  have hcd : σ.item.can_distribute q = true := by
    simp [InventoryItem.can_distribute]; exact hle
  unfold process_distribution InventoryItem.calculate_distribution_state
  simp [h, hcd]

theorem void_transaction_purchase_eq (transaction_id : ℕ) (σ : EngineState)
    (orig : Transaction)
    (hfind : σ.ledger.find? (fun t => t.id = transaction_id) = some orig)
    (hv : orig.is_voided = false)
    (ht : orig.transaction_type = .PURCHASE)
    (hstock : ¬ σ.item.quantity_on_hand < orig.quantity_change) :
    void_transaction transaction_id σ = .ok
      { item := ⟨σ.item.quantity_on_hand - orig.quantity_change,
          if σ.item.total_cost_basis_cents -
              pyTrunc (orig.quantity_change * (orig.unit_cost_cents : ℚ)) < 0 then 0
          else σ.item.total_cost_basis_cents -
              pyTrunc (orig.quantity_change * (orig.unit_cost_cents : ℚ))⟩,
        ledger := (σ.ledger ++
          [({ id := σ.nextTxId,
              transaction_type := .CORRECTION,
              quantity_change := -orig.quantity_change,
              unit_cost_cents := orig.unit_cost_cents,
              reason_code := some .VOID,
              ref_transaction_id := some transaction_id } : Transaction)]).map
          (fun t : Transaction =>
            if t.id = transaction_id then ({ t with is_voided := true } : Transaction) else t),
        nextTxId := σ.nextTxId + 1 } := by
  unfold void_transaction apply_void_write
  rw [hfind]
  simp [hv, ht, hstock]

theorem void_transaction_donation_eq (transaction_id : ℕ) (σ : EngineState)
    (orig : Transaction)
    (hfind : σ.ledger.find? (fun t => t.id = transaction_id) = some orig)
    (hv : orig.is_voided = false)
    (ht : orig.transaction_type = .DONATION)
    (hstock : ¬ σ.item.quantity_on_hand < orig.quantity_change) :
    void_transaction transaction_id σ = .ok
      { item := ⟨σ.item.quantity_on_hand - orig.quantity_change,
          if σ.item.total_cost_basis_cents < 0 then 0
          else σ.item.total_cost_basis_cents⟩,
        ledger := (σ.ledger ++
          [({ id := σ.nextTxId,
              transaction_type := .CORRECTION,
              quantity_change := -orig.quantity_change,
              unit_cost_cents := orig.unit_cost_cents,
              reason_code := some .VOID,
              ref_transaction_id := some transaction_id } : Transaction)]).map
          (fun t : Transaction =>
            if t.id = transaction_id then ({ t with is_voided := true } : Transaction) else t),
        nextTxId := σ.nextTxId + 1 } := by
  unfold void_transaction apply_void_write
  rw [hfind]
  simp [hv, ht, hstock]

theorem void_transaction_distribution_eq (transaction_id : ℕ) (σ : EngineState)
    (orig : Transaction)
    (hfind : σ.ledger.find? (fun t => t.id = transaction_id) = some orig)
    (hv : orig.is_voided = false)
    (ht : orig.transaction_type = .DISTRIBUTION) :
    void_transaction transaction_id σ = .ok
      { item := ⟨σ.item.quantity_on_hand + |orig.quantity_change|,
          if σ.item.total_cost_basis_cents +
              orig.total_financial_impact_cents < 0 then 0
          else σ.item.total_cost_basis_cents +
              orig.total_financial_impact_cents⟩,
        ledger := (σ.ledger ++
          [({ id := σ.nextTxId,
              transaction_type := .CORRECTION,
              quantity_change := |orig.quantity_change|,
              unit_cost_cents := orig.unit_cost_cents,
              reason_code := some .VOID,
              ref_transaction_id := some transaction_id } : Transaction)]).map
          (fun t : Transaction =>
            if t.id = transaction_id then ({ t with is_voided := true } : Transaction) else t),
        nextTxId := σ.nextTxId + 1 } := by
  unfold void_transaction apply_void_write
  rw [hfind]
  simp [hv, ht]



theorem process_distribution_ok_iff (q : ℚ) (r : ReasonCode)
    (σ σ₂ : EngineState) :
    process_distribution q r σ = .ok σ₂ ↔
      ¬ q ≤ 0 ∧ q ≤ σ.item.quantity_on_hand ∧
      σ₂ =
        { item := ⟨σ.item.quantity_on_hand - q,
            if σ.item.total_cost_basis_cents -
                pyRound (q * (σ.item.current_unit_cost_cents : ℚ)) < 0 then 0
            else σ.item.total_cost_basis_cents -
                pyRound (q * (σ.item.current_unit_cost_cents : ℚ))⟩,
          ledger := σ.ledger ++
            [{ id := σ.nextTxId, transaction_type := .DISTRIBUTION,
               quantity_change := -q,
               unit_cost_cents := σ.item.current_unit_cost_cents,
               total_financial_impact_cents :=
                 pyRound (q * (σ.item.current_unit_cost_cents : ℚ)),
               reason_code := some r }],
          nextTxId := σ.nextTxId + 1 } := by
  constructor
  · intro h
    by_cases h1 : q ≤ 0
    · unfold process_distribution at h
      rw [if_pos h1] at h
      simp at h
    · by_cases h2 : q ≤ σ.item.quantity_on_hand
      · refine ⟨h1, h2, ?_⟩
        rw [process_distribution_success q r σ h1 h2] at h
        exact ((Except.ok.injEq _ _).mp h).symm
      · rw [process_distribution_insufficient q r σ h1 (not_le.mp h2)] at h
        simp at h
  · rintro ⟨h1, h2, rfl⟩
    exact process_distribution_success q r σ h1 h2

theorem find?_fresh_append (L : List Transaction) (tx : Transaction)
    (hfresh : ∀ t ∈ L, t.id ≠ tx.id) :
    (L ++ [tx]).find? (fun t => t.id = tx.id) = some tx := by
  rw [List.find?_append]
  have h1 : L.find? (fun t => decide (t.id = tx.id)) = none :=
    List.find?_eq_none.mpr (by intro x hx; simpa using hfresh x hx)
  rw [h1]
  simp [List.find?]

theorem error_state_eq {e₀ e : EngineError} {σ₀ σf : EngineState}
    (h : (Except.error (e₀, σ₀) :
        Except (EngineError × EngineState) EngineState) = .error (e, σf)) :
    σf = σ₀ := by
  injection h with h1
  exact (Prod.ext_iff.mp h1).2.symm

theorem raw_error_state (op : EngineOp) (σ σf : EngineState) (e : EngineError)
    (h : rawStep op σ = .error (e, σf)) : σf = σ := by
  cases op <;>
    simp only [rawStep, process_purchase, process_donation, process_distribution,
      void_transaction, apply_void_write, InventoryItem.calculate_purchase_state,
      InventoryItem.calculate_distribution_state] at h
  repeat' split at h
  all_goals first
  | exact error_state_eq h
  | simp at h


/-! ### Claims -/

/-- C2: for every item state the derived weighted-average unit cost is 0
when `quantity_on_hand ≤ 0`; otherwise it is `total_cost_basis_cents /
quantity_on_hand` rounded to the nearest cent with ties to even — the
rounded value is within half a cent of the exact quotient and a tie
lands on an even cent, which characterizes round-half-to-even and in
particular rules out truncation. -/
theorem current_unit_cost_round_half_even (it : InventoryItem) :
    (it.quantity_on_hand ≤ 0 → it.current_unit_cost_cents = 0) ∧
    (0 < it.quantity_on_hand →
      |(it.current_unit_cost_cents : ℚ) -
          (it.total_cost_basis_cents : ℚ) / it.quantity_on_hand| ≤ 1/2 ∧
      (|(it.current_unit_cost_cents : ℚ) -
          (it.total_cost_basis_cents : ℚ) / it.quantity_on_hand| = 1/2 →
        it.current_unit_cost_cents % 2 = 0)) := by
  constructor
  · intro h
    simp [InventoryItem.current_unit_cost_cents, h]
  · intro h
    have hne : ¬ it.quantity_on_hand ≤ 0 := not_le.mpr h
    simp only [InventoryItem.current_unit_cost_cents, if_neg hne]
    exact ⟨pyRound_abs_le _, pyRound_tie_even _⟩

theorem current_unit_cost_round_half_even_witness :
    0 < (InventoryItem.mk 2 3).quantity_on_hand ∧
    |((InventoryItem.mk 2 3).current_unit_cost_cents : ℚ) -
        ((InventoryItem.mk 2 3).total_cost_basis_cents : ℚ) /
          (InventoryItem.mk 2 3).quantity_on_hand| ≤ 1/2 :=
  ⟨by norm_num, ((current_unit_cost_round_half_even ⟨2, 3⟩).2 (by norm_num)).1⟩

/-- C3: for every state and every requested quantity `d > 0`, the
distribution fails with `InsufficientInventory` exactly when `d` exceeds
the quantity on hand; otherwise it succeeds, recording
`cogs = round(d * current_unit_cost)` as the financial impact, the new
quantity `quantity_on_hand - d` and the new basis
`max 0 (total_cost_basis_cents - cogs)`. -/
theorem process_distribution_spec (σ : EngineState) (d : ℚ) (r : ReasonCode)
    (hd : 0 < d) :
    (step (.processDistribution d r) σ = .error .insufficientInventory ↔
      σ.item.quantity_on_hand < d) ∧
    (d ≤ σ.item.quantity_on_hand →
      step (.processDistribution d r) σ = .ok
        { item := ⟨σ.item.quantity_on_hand - d,
            max 0 (σ.item.total_cost_basis_cents -
              pyRound (d * (σ.item.current_unit_cost_cents : ℚ)))⟩,
          ledger := σ.ledger ++
            [{ id := σ.nextTxId, transaction_type := .DISTRIBUTION,
               quantity_change := -d,
               unit_cost_cents := σ.item.current_unit_cost_cents,
               total_financial_impact_cents :=
                 pyRound (d * (σ.item.current_unit_cost_cents : ℚ)),
               reason_code := some r }],
          nextTxId := σ.nextTxId + 1 }) := by
  have hd0 : ¬ d ≤ 0 := not_le.mpr hd
  constructor
  · constructor
    · intro h
      by_contra hnot
      rw [not_lt] at hnot
      simp only [step, rawStep] at h
      rw [process_distribution_success d r σ hd0 hnot] at h
      simp at h
    · intro hlt
      simp only [step, rawStep]
      rw [process_distribution_insufficient d r σ hd0 hlt]
  · intro hle
    rw [← ite_lt_zero_eq_max]
    simp only [step, rawStep]
    rw [process_distribution_success d r σ hd0 hle]

theorem process_distribution_spec_witness :
    step (.processDistribution 999 .CLIENT) ⟨⟨10, 0⟩, [], 1⟩ =
      .error .insufficientInventory :=
  (process_distribution_spec ⟨⟨10, 0⟩, [], 1⟩ 999 .CLIENT (by norm_num)).1.mpr
    (by norm_num)

/-- C6: every engine operation is atomic.  First conjunct: inside the
transaction body no write precedes a failure — a raise carries exactly
the entry state.  Second conjunct: `DatabaseManager.transaction` rolls
the connection back on an exception, so a failed `execute` leaves the
item aggregate and the ledger exactly as they were. -/
theorem engine_ops_atomic (op : EngineOp) (σ σf : EngineState)
    (e : EngineError) :
    (rawStep op σ = .error (e, σf) → σf = σ) ∧
    (execute op σ = (.error e, σf) → σf = σ) := by
  constructor
  · exact raw_error_state op σ σf e
  · intro h
    unfold execute db_transaction at h
    cases hr : rawStep op σ with
    | ok σ₂ =>
      rw [hr] at h
      simp at h
    | error p =>
      rw [hr] at h
      obtain ⟨p1, p2⟩ := p
      exact ((Prod.ext_iff.mp h).2).symm

theorem engine_ops_atomic_witness :
    (execute (.processDistribution 999 .CLIENT) ⟨⟨10, 0⟩, [], 1⟩).2 =
      ⟨⟨10, 0⟩, [], 1⟩ :=
  (engine_ops_atomic (.processDistribution 999 .CLIENT) ⟨⟨10, 0⟩, [], 1⟩
    (execute (.processDistribution 999 .CLIENT) ⟨⟨10, 0⟩, [], 1⟩).2
    .insufficientInventory).2
    (by norm_num [execute, db_transaction, rawStep, process_distribution,
      InventoryItem.calculate_distribution_state, InventoryItem.can_distribute])


theorem step_preserves_ItemOK (op : EngineOp) (σ σ₂ : EngineState)
    (hσ : ItemOK σ) (hstep : step op σ = .ok σ₂) : ItemOK σ₂ := by
  obtain ⟨hq, hb⟩ := hσ
  rw [step_ok_iff] at hstep
  cases op with
  | processPurchase q c =>
    simp only [rawStep] at hstep
    rw [process_purchase_ok_iff] at hstep
    obtain ⟨h1, h2, h3, rfl⟩ := hstep
    refine ⟨?_, ?_⟩ <;> dsimp only
    · push_neg at h1
      linarith
    · omega
  | processDonation q f =>
    simp only [rawStep] at hstep
    rw [process_donation_ok_iff] at hstep
    obtain ⟨h1, rfl⟩ := hstep
    refine ⟨?_, ?_⟩ <;> dsimp only
    · push_neg at h1
      linarith
    · exact hb
  | processDistribution q r =>
    simp only [rawStep] at hstep
    rw [process_distribution_ok_iff] at hstep
    obtain ⟨h1, h2, rfl⟩ := hstep
    refine ⟨?_, ?_⟩ <;> dsimp only
    · linarith
    · split <;> omega
  | voidTransaction i =>
    simp only [rawStep] at hstep
    unfold void_transaction apply_void_write at hstep
    repeat' split at hstep
    all_goals try exact Except.noConfusion hstep
    all_goals rw [Except.ok.injEq] at hstep
    all_goals subst hstep
    all_goals refine ⟨?_, ?_⟩ <;> dsimp only
    all_goals try (split <;> omega)
    all_goals first
    | linarith
    | exact add_nonneg hq (abs_nonneg _)

/-- C1: the item invariant `quantity_on_hand ≥ 0 ∧ total_cost_basis_cents ≥ 0`
holds for a freshly created item and is preserved by every engine
operation that completes (ProcessPurchase, ProcessDonation,
ProcessDistribution, VoidTransaction). -/
theorem engine_preserves_item_invariant :
    ItemOK create_item ∧
    ∀ (op : EngineOp) (σ σ₂ : EngineState),
      ItemOK σ → step op σ = .ok σ₂ → ItemOK σ₂ :=
  ⟨⟨le_refl 0, le_refl 0⟩, step_preserves_ItemOK⟩

theorem engine_preserves_item_invariant_witness :
    ItemOK ⟨⟨5, 500⟩,
      [{ id := 1, transaction_type := .PURCHASE, quantity_change := 5,
         unit_cost_cents := 100 }], 2⟩ :=
  engine_preserves_item_invariant.2 (.processPurchase 5 1) create_item _
    ⟨le_refl 0, le_refl 0⟩
    (by norm_num [step, rawStep, process_purchase, create_item, pyTrunc,
      InventoryItem.calculate_purchase_state])


/-- C4: for every valid item state (no ledger row already carries the id
the purchase row will get, nonnegative quantity and basis) and every
valid purchase (`q > 0`, unit cost `c ≥ 0` dollars), processing the
purchase and then immediately voiding that purchase transaction restores
the item to exactly its pre-purchase
`(quantity_on_hand, total_cost_basis_cents)`. -/
theorem purchase_void_roundtrip (σ : EngineState) (q c : ℚ)
    (hfresh : ∀ t ∈ σ.ledger, t.id ≠ σ.nextTxId)
    (hq0 : 0 ≤ σ.item.quantity_on_hand)
    (hb0 : 0 ≤ σ.item.total_cost_basis_cents)
    (hq : 0 < q) (hc : 0 ≤ c) :
    Except.map (fun σ₂ => σ₂.item)
      ((step (.processPurchase q c) σ).bind
        (fun σ₁ => step (.voidTransaction σ.nextTxId) σ₁)) = .ok σ.item := by
  obtain ⟨⟨q0, b0⟩, L, n⟩ := σ
  dsimp only at hfresh hq0 hb0 ⊢
  have hucc : (0:ℤ) ≤ pyTrunc (c * 100) :=
    pyTrunc_nonneg (mul_nonneg hc (by norm_num))
  have htot : (0:ℤ) ≤ pyTrunc (q * (pyTrunc (c * 100) : ℚ)) :=
    pyTrunc_nonneg (mul_nonneg hq.le (by exact_mod_cast hucc))
  have hstep1 : step (.processPurchase q c) ⟨⟨q0, b0⟩, L, n⟩ = .ok
      { item := ⟨q0 + q, b0 + pyTrunc (q * (pyTrunc (c * 100) : ℚ))⟩,
        ledger := L ++
          [{ id := n, transaction_type := .PURCHASE,
             quantity_change := q, unit_cost_cents := pyTrunc (c * 100) }],
        nextTxId := n + 1 } := by
    rw [step_ok_iff]
    simp only [rawStep]
    exact (process_purchase_ok_iff q c ⟨⟨q0, b0⟩, L, n⟩ _).mpr
      ⟨not_le.mpr hq, not_lt.mpr hc, not_lt.mpr htot, rfl⟩
  rw [hstep1]
  have hfind :
      ((L ++
        [({ id := n, transaction_type := .PURCHASE, quantity_change := q,
            unit_cost_cents := pyTrunc (c * 100) } : Transaction)]).find?
        (fun t => t.id = n)) = some
          { id := n, transaction_type := .PURCHASE, quantity_change := q,
            unit_cost_cents := pyTrunc (c * 100) } :=
    find?_fresh_append L
      ({ id := n, transaction_type := .PURCHASE, quantity_change := q,
         unit_cost_cents := pyTrunc (c * 100) } : Transaction)
      (fun t ht => hfresh t ht)
  have hstep2 := void_transaction_purchase_eq n
    ({ item := ⟨q0 + q, b0 + pyTrunc (q * (pyTrunc (c * 100) : ℚ))⟩,
       ledger := L ++
         [{ id := n, transaction_type := .PURCHASE,
            quantity_change := q, unit_cost_cents := pyTrunc (c * 100) }],
       nextTxId := n + 1 } : EngineState) _ hfind rfl rfl
    (show ¬ q0 + q < q from not_lt.mpr (by linarith))
  simp only [Except.bind]
  have hstep2s := (step_ok_iff (.voidTransaction n) _ _).mpr hstep2
  rw [hstep2s]
  simp only [Except.map]
  refine congrArg Except.ok ?_
  dsimp only
  simp only [InventoryItem.mk.injEq]
  constructor
  · ring
  · split <;> omega


theorem purchase_void_roundtrip_witness :
    Except.map (fun σ₂ => σ₂.item)
      ((step (.processPurchase 5 1) create_item).bind
        (fun σ₁ => step (.voidTransaction create_item.nextTxId) σ₁)) =
      .ok create_item.item :=
  purchase_void_roundtrip create_item 5 1 (by simp [create_item])
    (le_refl 0) (le_refl 0) (by norm_num) (by norm_num)

/-- C5 counterexample: on the item state `(2, 3)` (2 units, 3 cents of
basis) the unit cost rounds to 2 cents, distributing both units records
COGS of 4 cents and the floor clamps the basis to 0; the void then
restores `0 + 4 = 4` cents, not the original 3 — the round-trip is not
exact. -/
theorem distribution_void_roundtrip_cex :
    step (.processDistribution 2 .CLIENT) ⟨⟨2, 3⟩, [], 1⟩ = .ok
      ⟨⟨0, 0⟩,
       [{ id := 1, transaction_type := .DISTRIBUTION, quantity_change := -2,
          unit_cost_cents := 2, total_financial_impact_cents := 4,
          reason_code := some .CLIENT }], 2⟩ ∧
    step (.voidTransaction 1)
      ⟨⟨0, 0⟩,
       [{ id := 1, transaction_type := .DISTRIBUTION, quantity_change := -2,
          unit_cost_cents := 2, total_financial_impact_cents := 4,
          reason_code := some .CLIENT }], 2⟩ = .ok
      ⟨⟨2, 4⟩,
       [{ id := 1, transaction_type := .DISTRIBUTION, quantity_change := -2,
          unit_cost_cents := 2, total_financial_impact_cents := 4,
          reason_code := some .CLIENT, is_voided := true },
        { id := 2, transaction_type := .CORRECTION, quantity_change := 2,
          unit_cost_cents := 2, reason_code := some .VOID,
          ref_transaction_id := some 1 }], 3⟩ ∧
    InventoryItem.mk 2 4 ≠ InventoryItem.mk 2 3 := by
  refine ⟨?_, ?_, ?_⟩
  · norm_num [step, rawStep, process_distribution,
      InventoryItem.calculate_distribution_state, InventoryItem.can_distribute,
      InventoryItem.current_unit_cost_cents, pyRound]
  · norm_num [step, rawStep, void_transaction, apply_void_write, List.find?]
  · simp

/-- C5 (amended): distribution followed by voiding that distribution
always succeeds and always restores the quantity exactly; the resulting
cost basis is `max 0 (basis - cogs) + cogs` for the recorded COGS, which
equals the pre-distribution basis exactly when the recorded COGS does
not exceed it (that is, whenever the floor-at-zero did not clamp). -/
theorem distribution_void_roundtrip_amended (σ : EngineState) (d : ℚ)
    (r : ReasonCode)
    (hfresh : ∀ t ∈ σ.ledger, t.id ≠ σ.nextTxId)
    (hb0 : 0 ≤ σ.item.total_cost_basis_cents)
    (hd : 0 < d) (hdq : d ≤ σ.item.quantity_on_hand) :
    (Except.map (fun σ₂ => σ₂.item)
      ((step (.processDistribution d r) σ).bind
        (fun σ₁ => step (.voidTransaction σ.nextTxId) σ₁)) = .ok
      ⟨σ.item.quantity_on_hand,
       max 0 (σ.item.total_cost_basis_cents -
           pyRound (d * (σ.item.current_unit_cost_cents : ℚ))) +
         pyRound (d * (σ.item.current_unit_cost_cents : ℚ))⟩) ∧
    (pyRound (d * (σ.item.current_unit_cost_cents : ℚ)) ≤
        σ.item.total_cost_basis_cents →
      max 0 (σ.item.total_cost_basis_cents -
          pyRound (d * (σ.item.current_unit_cost_cents : ℚ))) +
        pyRound (d * (σ.item.current_unit_cost_cents : ℚ)) =
      σ.item.total_cost_basis_cents) := by
  obtain ⟨⟨q0, b0⟩, L, n⟩ := σ
  dsimp only at hfresh hb0 hdq ⊢
  have hd0 : ¬ d ≤ 0 := not_le.mpr hd
  have hC : 0 ≤ pyRound (d * ((InventoryItem.mk q0 b0).current_unit_cost_cents : ℚ)) :=
    pyRound_nonneg (mul_nonneg hd.le
      (by exact_mod_cast current_unit_cost_cents_nonneg ⟨q0, b0⟩ hb0))
  constructor
  · have hstep1 := (step_ok_iff (.processDistribution d r) _ _).mpr
      (process_distribution_success d r ⟨⟨q0, b0⟩, L, n⟩ hd0 hdq)
    dsimp only at hstep1
    rw [hstep1]
    simp only [Except.bind]
    have hfind := find?_fresh_append L
      ({ id := n, transaction_type := .DISTRIBUTION, quantity_change := -d,
         unit_cost_cents := (InventoryItem.mk q0 b0).current_unit_cost_cents,
         total_financial_impact_cents :=
           pyRound (d * ((InventoryItem.mk q0 b0).current_unit_cost_cents : ℚ)),
         reason_code := some r } : Transaction)
      (fun t ht => hfresh t ht)
    have hstep2 := void_transaction_distribution_eq n
      ({ item := ⟨q0 - d,
           if b0 - pyRound (d * ((InventoryItem.mk q0 b0).current_unit_cost_cents : ℚ)) < 0
           then 0
           else b0 - pyRound (d * ((InventoryItem.mk q0 b0).current_unit_cost_cents : ℚ))⟩,
         ledger := L ++
           [{ id := n, transaction_type := .DISTRIBUTION, quantity_change := -d,
              unit_cost_cents := (InventoryItem.mk q0 b0).current_unit_cost_cents,
              total_financial_impact_cents :=
                pyRound (d * ((InventoryItem.mk q0 b0).current_unit_cost_cents : ℚ)),
              reason_code := some r }],
         nextTxId := n + 1 } : EngineState) _ hfind rfl rfl
    have hstep2s := (step_ok_iff (.voidTransaction n) _ _).mpr hstep2
    rw [hstep2s]
    simp only [Except.map]
    refine congrArg Except.ok ?_
    dsimp only
    simp only [InventoryItem.mk.injEq]
    constructor
    · rw [abs_neg, abs_of_pos hd]
      ring
    · rw [ite_lt_zero_eq_max, ite_lt_zero_eq_max]
      omega
  · intro hc
    omega

theorem distribution_void_roundtrip_amended_witness :
    Except.map (fun σ₂ => σ₂.item)
      ((step (.processDistribution 2 .CLIENT) ⟨⟨3, 3⟩, [], 1⟩).bind
        (fun σ₁ => step (.voidTransaction 1) σ₁)) =
      .ok (⟨3, 3⟩ : InventoryItem) := by
  have h := distribution_void_roundtrip_amended ⟨⟨3, 3⟩, [], 1⟩ 2 .CLIENT
    (by simp) (by norm_num) (by norm_num) (by norm_num)
  rw [h.1, h.2 (by norm_num [InventoryItem.current_unit_cost_cents, pyRound])]

/-- C7 counterexample: donating 1.5 units at a fair market value of 3
cents per unit records `int(1.5 * 3) = 4` cents on the DONATION row,
while `qty * fmvCentsPerUnit = 4.5`: the recorded total fair market
value is the truncated product, not the exact one. -/
theorem donation_fmv_cex :
    step (.processDonation (3/2) (3/100)) ⟨⟨0, 0⟩, [], 1⟩ = .ok
      ⟨⟨3/2, 0⟩,
       [{ id := 1, transaction_type := .DONATION, quantity_change := 3/2,
          unit_cost_cents := 0, fair_market_value_cents := 4 }], 2⟩ ∧
    pyTrunc ((3/100) * 100) = 3 ∧
    ¬ ((4 : ℚ) = (3/2) * 3) := by
  refine ⟨?_, ?_, ?_⟩
  · norm_num [step, rawStep, process_donation, pyTrunc]
  · norm_num [pyTrunc]
  · norm_num

/-- C7 (amended): for every item state and every donation with `q > 0`,
ProcessDonation increases `quantity_on_hand` by `q`, leaves
`total_cost_basis_cents` unchanged (the fair market value never enters
the cost basis), and appends a DONATION ledger row with
`unit_cost_cents = 0` and `fair_market_value_cents` equal to the product
of `q` with the per-unit fair market value in cents, truncated toward
zero by `int()` (exact whenever that product is integral). -/
theorem process_donation_amended (σ : EngineState) (q f : ℚ) (hq : 0 < q) :
    step (.processDonation q f) σ = .ok
      { item := ⟨σ.item.quantity_on_hand + q, σ.item.total_cost_basis_cents⟩,
        ledger := σ.ledger ++
          [{ id := σ.nextTxId, transaction_type := .DONATION,
             quantity_change := q, unit_cost_cents := 0,
             fair_market_value_cents := pyTrunc (q * (pyTrunc (f * 100) : ℚ)) }],
        nextTxId := σ.nextTxId + 1 } := by
  rw [step_ok_iff]
  simp only [rawStep]
  exact (process_donation_ok_iff q f σ _).mpr ⟨not_le.mpr hq, rfl⟩

theorem process_donation_amended_witness :
    step (.processDonation (3/2) (3/100)) ⟨⟨0, 0⟩, [], 1⟩ = .ok
      { item := ⟨0 + 3/2, 0⟩,
        ledger := [] ++
          [{ id := 1, transaction_type := .DONATION, quantity_change := 3/2,
             unit_cost_cents := 0,
             fair_market_value_cents :=
               pyTrunc ((3/2) * (pyTrunc ((3/100) * 100) : ℚ)) }],
        nextTxId := 1 + 1 } :=
  process_donation_amended ⟨⟨0, 0⟩, [], 1⟩ (3/2) (3/100) (by norm_num)

theorem void_transaction_already_voided (transaction_id : ℕ)
    (σ : EngineState) (orig : Transaction)
    (hfind : σ.ledger.find? (fun t => t.id = transaction_id) = some orig)
    (hv : orig.is_voided = true) :
    void_transaction transaction_id σ = .error (.alreadyVoided, σ) := by
  unfold void_transaction
  rw [hfind]
  simp [hv]

theorem void_transaction_purchase_insufficient (transaction_id : ℕ)
    (σ : EngineState) (orig : Transaction)
    (hfind : σ.ledger.find? (fun t => t.id = transaction_id) = some orig)
    (hv : orig.is_voided = false)
    (ht : orig.transaction_type = .PURCHASE)
    (hstock : σ.item.quantity_on_hand < orig.quantity_change) :
    void_transaction transaction_id σ = .error (.insufficientStockForVoid, σ) := by
  unfold void_transaction
  rw [hfind]
  simp [hv, ht, hstock]

theorem void_transaction_donation_insufficient (transaction_id : ℕ)
    (σ : EngineState) (orig : Transaction)
    (hfind : σ.ledger.find? (fun t => t.id = transaction_id) = some orig)
    (hv : orig.is_voided = false)
    (ht : orig.transaction_type = .DONATION)
    (hstock : σ.item.quantity_on_hand < orig.quantity_change) :
    void_transaction transaction_id σ = .error (.insufficientStockForVoid, σ) := by
  unfold void_transaction
  rw [hfind]
  simp [hv, ht, hstock]

theorem void_transaction_correction_unsupported (transaction_id : ℕ)
    (σ : EngineState) (orig : Transaction)
    (hfind : σ.ledger.find? (fun t => t.id = transaction_id) = some orig)
    (hv : orig.is_voided = false)
    (ht : orig.transaction_type = .CORRECTION) :
    void_transaction transaction_id σ = .error (.unsupportedVoidType, σ) := by
  unfold void_transaction
  rw [hfind]
  simp [hv, ht]

/-- C8 counterexample: voiding a distribution whose recorded COGS was 4
cents restores 4 cents into the basis, but the inserted CORRECTION row
carries `total_financial_impact_cents = 0` (the INSERT in
`void_transaction` does not list that column, so it takes the column
default), not the restored amount. -/
theorem void_correction_tfic_cex :
    step (.voidTransaction 1)
      ⟨⟨0, 0⟩,
       [{ id := 1, transaction_type := .DISTRIBUTION, quantity_change := -2,
          unit_cost_cents := 2, total_financial_impact_cents := 4,
          reason_code := some .CLIENT }], 2⟩ = .ok
      ⟨⟨2, 4⟩,
       [{ id := 1, transaction_type := .DISTRIBUTION, quantity_change := -2,
          unit_cost_cents := 2, total_financial_impact_cents := 4,
          reason_code := some .CLIENT, is_voided := true },
        { id := 2, transaction_type := .CORRECTION, quantity_change := 2,
          unit_cost_cents := 2, reason_code := some .VOID,
          ref_transaction_id := some 1 }], 3⟩ ∧
    (∀ t ∈
      [({ id := 1, transaction_type := .DISTRIBUTION, quantity_change := -2,
          unit_cost_cents := 2, total_financial_impact_cents := 4,
          reason_code := some .CLIENT, is_voided := true } : Transaction),
       ({ id := 2, transaction_type := .CORRECTION, quantity_change := 2,
          unit_cost_cents := 2, reason_code := some .VOID,
          ref_transaction_id := some 1 } : Transaction)],
      t.ref_transaction_id = some 1 → t.total_financial_impact_cents ≠ 4) := by
  constructor
  · norm_num [step, rawStep, void_transaction, apply_void_write, List.find?]
  · intro t ht
    rcases List.mem_cons.mp ht with h | h
    · subst h
      simp
    · rcases List.mem_singleton.mp h with rfl
      simp

theorem void_transaction_ok_ledger_shape (σ σ₂ : EngineState)
    (transaction_id : ℕ) (orig : Transaction)
    (hfind : σ.ledger.find? (fun t => t.id = transaction_id) = some orig)
    (hs : step (.voidTransaction transaction_id) σ = .ok σ₂) :
    σ₂.ledger = (σ.ledger ++
      [({ id := σ.nextTxId, transaction_type := .CORRECTION,
          quantity_change := reversal_delta orig,
          unit_cost_cents := orig.unit_cost_cents,
          total_financial_impact_cents := 0,
          reason_code := some .VOID,
          ref_transaction_id := some transaction_id } : Transaction)]).map
      (fun t : Transaction =>
        if t.id = transaction_id then ({ t with is_voided := true } : Transaction)
        else t) ∧
    σ₂.nextTxId = σ.nextTxId + 1 := by
  rw [step_ok_iff] at hs
  simp only [rawStep] at hs
  by_cases hv : orig.is_voided = true
  · rw [void_transaction_already_voided transaction_id σ orig hfind hv] at hs
    exact absurd hs (by simp)
  · rw [Bool.not_eq_true] at hv
    cases htype : orig.transaction_type with
    | PURCHASE =>
      by_cases hstock : σ.item.quantity_on_hand < orig.quantity_change
      · rw [void_transaction_purchase_insufficient transaction_id σ orig
          hfind hv htype hstock] at hs
        exact absurd hs (by simp)
      · rw [void_transaction_purchase_eq transaction_id σ orig
          hfind hv htype hstock] at hs
        rw [Except.ok.injEq] at hs
        subst hs
        refine ⟨?_, rfl⟩
        dsimp only
        simp [reversal_delta, htype]
    | DONATION =>
      by_cases hstock : σ.item.quantity_on_hand < orig.quantity_change
      · rw [void_transaction_donation_insufficient transaction_id σ orig
          hfind hv htype hstock] at hs
        exact absurd hs (by simp)
      · rw [void_transaction_donation_eq transaction_id σ orig
          hfind hv htype hstock] at hs
        rw [Except.ok.injEq] at hs
        subst hs
        refine ⟨?_, rfl⟩
        dsimp only
        simp [reversal_delta, htype]
    | DISTRIBUTION =>
      rw [void_transaction_distribution_eq transaction_id σ orig
        hfind hv htype] at hs
      rw [Except.ok.injEq] at hs
      subst hs
      refine ⟨?_, rfl⟩
      dsimp only
      simp [reversal_delta, htype]
    | CORRECTION =>
      rw [void_transaction_correction_unsupported transaction_id σ orig
        hfind hv htype] at hs
      exact absurd hs (by simp)


/-- C8 (amended): every successful VoidTransaction appends a CORRECTION
row whose `quantity_change` is the computed reversal delta, whose
`unit_cost_cents` is the original transaction's, with
`reason_code = VOID` and `ref_transaction_id = original.id`, but whose
`total_financial_impact_cents` is left at the column default 0 rather
than the restored amount; in the same atomic unit the row with the
original's id gets `is_voided = true`. -/
theorem void_correction_row_amended (σ σ₂ : EngineState)
    (transaction_id : ℕ) (orig : Transaction)
    (hfind : σ.ledger.find? (fun t => t.id = transaction_id) = some orig)
    (hs : step (.voidTransaction transaction_id) σ = .ok σ₂) :
    σ₂.ledger = (σ.ledger ++
      [({ id := σ.nextTxId, transaction_type := .CORRECTION,
          quantity_change := reversal_delta orig,
          unit_cost_cents := orig.unit_cost_cents,
          total_financial_impact_cents := 0,
          reason_code := some .VOID,
          ref_transaction_id := some transaction_id } : Transaction)]).map
      (fun t : Transaction =>
        if t.id = transaction_id then ({ t with is_voided := true } : Transaction)
        else t) ∧
    σ₂.nextTxId = σ.nextTxId + 1 :=
  void_transaction_ok_ledger_shape σ σ₂ transaction_id orig hfind hs

theorem void_correction_row_amended_witness :
    ([({ id := 1, transaction_type := .PURCHASE, quantity_change := 5,
         unit_cost_cents := 100, is_voided := true } : Transaction),
      ({ id := 2, transaction_type := .CORRECTION, quantity_change := -5,
         unit_cost_cents := 100, reason_code := some .VOID,
         ref_transaction_id := some 1 } : Transaction)] : List Transaction) =
      ([({ id := 1, transaction_type := .PURCHASE, quantity_change := 5,
           unit_cost_cents := 100 } : Transaction)] ++
        [({ id := 2, transaction_type := .CORRECTION,
            quantity_change := reversal_delta
              { id := 1, transaction_type := .PURCHASE, quantity_change := 5,
                unit_cost_cents := 100 },
            unit_cost_cents := 100, total_financial_impact_cents := 0,
            reason_code := some .VOID,
            ref_transaction_id := some 1 } : Transaction)]).map
        (fun t : Transaction =>
          if t.id = 1 then ({ t with is_voided := true } : Transaction)
          else t) :=
  (void_correction_row_amended
    ⟨⟨5, 500⟩,
     [{ id := 1, transaction_type := .PURCHASE, quantity_change := 5,
        unit_cost_cents := 100 }], 2⟩
    ⟨⟨0, 0⟩,
     [{ id := 1, transaction_type := .PURCHASE, quantity_change := 5,
        unit_cost_cents := 100, is_voided := true },
      { id := 2, transaction_type := .CORRECTION, quantity_change := -5,
        unit_cost_cents := 100, reason_code := some .VOID,
        ref_transaction_id := some 1 }], 3⟩
    1
    { id := 1, transaction_type := .PURCHASE, quantity_change := 5,
      unit_cost_cents := 100 }
    (by simp [List.find?])
    (by norm_num [step, rawStep, void_transaction, apply_void_write,
      List.find?, pyTrunc])).1

theorem reachable_demo_purchase_state : Reachable demo_purchase_state :=
  Reachable.step (.processPurchase 1 (2/100)) create_item demo_purchase_state
    Reachable.init
    (by norm_num [step, rawStep, process_purchase, create_item,
      demo_purchase_state, pyTrunc, InventoryItem.calculate_purchase_state])

theorem reachable_residue_state : Reachable residue_state := by
  have h1 : Reachable demo_purchase_state := reachable_demo_purchase_state
  have h2 : Reachable
      (⟨⟨3, 4⟩,
        [{ id := 1, transaction_type := .PURCHASE, quantity_change := 1,
           unit_cost_cents := 2 },
         { id := 2, transaction_type := .PURCHASE, quantity_change := 2,
           unit_cost_cents := 1 }], 3⟩ : EngineState) :=
    Reachable.step (.processPurchase 2 (1/100)) demo_purchase_state _ h1
      (by norm_num [step, rawStep, process_purchase, demo_purchase_state,
        pyTrunc, InventoryItem.calculate_purchase_state])
  exact Reachable.step (.processDistribution 3 .CLIENT) _ residue_state h2
    (by norm_num [step, rawStep, process_distribution, residue_state,
      InventoryItem.calculate_distribution_state, InventoryItem.can_distribute,
      InventoryItem.current_unit_cost_cents, pyRound])

/-- C9 counterexample: the reachable state `residue_state` (reached by
two purchases and a full distribution) has `quantity_on_hand = 0` with
one cent of basis left; there the unit cost reads 0 and
`|0 * 0 - 1| = 1 > 1 * 0`, so the claimed invariant fails on a reachable
state. -/
theorem unit_cost_invariant_cex :
    Reachable residue_state ∧
    ¬ (|(residue_state.item.current_unit_cost_cents : ℚ) *
          residue_state.item.quantity_on_hand -
          (residue_state.item.total_cost_basis_cents : ℚ)| ≤
        1 * residue_state.item.quantity_on_hand) := by
  refine ⟨reachable_residue_state, ?_⟩
  norm_num [residue_state, InventoryItem.current_unit_cost_cents]

/-- C9 (amended): for every reachable engine state with
`quantity_on_hand > 0`,
`|current_unit_cost_cents * quantity_on_hand - total_cost_basis_cents|`
is at most `1 cent * quantity_on_hand`; when the quantity is zero the
basis can retain a positive rounding residue (see the counterexample),
so the bound only holds for positive quantities. -/
theorem unit_cost_invariant_amended (σ : EngineState) (_reach : Reachable σ)
    (hq : 0 < σ.item.quantity_on_hand) :
    |(σ.item.current_unit_cost_cents : ℚ) * σ.item.quantity_on_hand -
        (σ.item.total_cost_basis_cents : ℚ)| ≤
      1 * σ.item.quantity_on_hand := by
  have hne : ¬ σ.item.quantity_on_hand ≤ 0 := not_le.mpr hq
  have hq0 : σ.item.quantity_on_hand ≠ 0 := ne_of_gt hq
  have hucc : (σ.item.current_unit_cost_cents : ℚ) =
      (pyRound ((σ.item.total_cost_basis_cents : ℚ) /
        σ.item.quantity_on_hand) : ℚ) := by
    rw [InventoryItem.current_unit_cost_cents, if_neg hne]
  rw [hucc]
  have hsplit : (pyRound ((σ.item.total_cost_basis_cents : ℚ) /
        σ.item.quantity_on_hand) : ℚ) * σ.item.quantity_on_hand -
        (σ.item.total_cost_basis_cents : ℚ) =
      ((pyRound ((σ.item.total_cost_basis_cents : ℚ) /
          σ.item.quantity_on_hand) : ℚ) -
        (σ.item.total_cost_basis_cents : ℚ) / σ.item.quantity_on_hand) *
        σ.item.quantity_on_hand := by
    rw [sub_mul, div_mul_cancel₀ _ hq0]
  rw [hsplit, abs_mul, abs_of_pos hq]
  have habs := pyRound_abs_le
    ((σ.item.total_cost_basis_cents : ℚ) / σ.item.quantity_on_hand)
  nlinarith [hq, habs]

theorem unit_cost_invariant_amended_witness :
    |(demo_purchase_state.item.current_unit_cost_cents : ℚ) *
        demo_purchase_state.item.quantity_on_hand -
        (demo_purchase_state.item.total_cost_basis_cents : ℚ)| ≤
      1 * demo_purchase_state.item.quantity_on_hand :=
  unit_cost_invariant_amended demo_purchase_state
    reachable_demo_purchase_state (by norm_num [demo_purchase_state])

/-- C10: distributing exactly the whole stock is permitted — from any
state with positive quantity, distributing `quantity_on_hand` succeeds
and leaves quantity 0 — and the reachable state `residue_state` shows a
full distribution can leave a positive cost basis behind (one cent
stuck), at which point the derived unit cost reads 0. -/
theorem full_distribution_allowed :
    (∀ (σ : EngineState) (r : ReasonCode), 0 < σ.item.quantity_on_hand →
      Except.map (fun σ₂ => σ₂.item.quantity_on_hand)
        (step (.processDistribution σ.item.quantity_on_hand r) σ) = .ok 0) ∧
    (Reachable residue_state ∧ residue_state.item.quantity_on_hand = 0 ∧
      0 < residue_state.item.total_cost_basis_cents ∧
      residue_state.item.current_unit_cost_cents = 0) := by
  constructor
  · intro σ r hq
    have h := (step_ok_iff (.processDistribution σ.item.quantity_on_hand r) _ _).mpr
      (process_distribution_success σ.item.quantity_on_hand r σ
        (not_le.mpr hq) le_rfl)
    rw [h]
    simp only [Except.map]
    refine congrArg Except.ok ?_
    dsimp only
    exact sub_self _
  · refine ⟨reachable_residue_state, rfl, by norm_num [residue_state], ?_⟩
    norm_num [residue_state, InventoryItem.current_unit_cost_cents]

theorem full_distribution_allowed_witness :
    Except.map (fun σ₂ => σ₂.item.quantity_on_hand)
      (step (.processDistribution
        (⟨⟨10, 250⟩, [], 1⟩ : EngineState).item.quantity_on_hand .CLIENT)
        ⟨⟨10, 250⟩, [], 1⟩) = .ok 0 :=
  full_distribution_allowed.1 ⟨⟨10, 250⟩, [], 1⟩ .CLIENT (by norm_num)


/-- Well-formedness of every reachable database state: ledger ids are
strictly below the autoincrement counter (so the next inserted id is
fresh) and the item invariant holds.  This discharges, for real states,
the hypotheses of the round-trip theorems. -/
theorem reachable_state_wf (σ : EngineState) (h : Reachable σ) :
    (∀ t ∈ σ.ledger, t.id < σ.nextTxId) ∧ ItemOK σ := by
  induction h with
  | init =>
    refine ⟨?_, le_refl 0, le_refl 0⟩
    intro t ht
    simp [create_item] at ht
  | step op σ₁ σ₂ hr hstep ih =>
    refine ⟨?_, step_preserves_ItemOK op σ₁ σ₂ ih.2 hstep⟩
    cases op with
    | processPurchase q c =>
      rw [step_ok_iff] at hstep
      simp only [rawStep] at hstep
      rw [process_purchase_ok_iff] at hstep
      obtain ⟨-, -, -, rfl⟩ := hstep
      intro t ht
      dsimp only at ht ⊢
      rcases List.mem_append.mp ht with h1 | h1
      · exact Nat.lt_succ_of_lt (ih.1 t h1)
      · rcases List.mem_singleton.mp h1 with rfl
        exact Nat.lt_succ_self _
    | processDonation q f =>
      rw [step_ok_iff] at hstep
      simp only [rawStep] at hstep
      rw [process_donation_ok_iff] at hstep
      obtain ⟨-, rfl⟩ := hstep
      intro t ht
      dsimp only at ht ⊢
      rcases List.mem_append.mp ht with h1 | h1
      · exact Nat.lt_succ_of_lt (ih.1 t h1)
      · rcases List.mem_singleton.mp h1 with rfl
        exact Nat.lt_succ_self _
    | processDistribution q r =>
      rw [step_ok_iff] at hstep
      simp only [rawStep] at hstep
      rw [process_distribution_ok_iff] at hstep
      obtain ⟨-, -, rfl⟩ := hstep
      intro t ht
      dsimp only at ht ⊢
      rcases List.mem_append.mp ht with h1 | h1
      · exact Nat.lt_succ_of_lt (ih.1 t h1)
      · rcases List.mem_singleton.mp h1 with rfl
        exact Nat.lt_succ_self _
    | voidTransaction i =>
      cases hfind : σ₁.ledger.find? (fun t => t.id = i) with
      | none =>
        have hnf : void_transaction i σ₁ = .error (.notFound, σ₁) := by
          unfold void_transaction
          rw [hfind]
        rw [step_ok_iff] at hstep
        simp only [rawStep] at hstep
        rw [hnf] at hstep
        exact absurd hstep (by simp)
      | some orig =>
        obtain ⟨hled, hnext⟩ :=
          void_transaction_ok_ledger_shape σ₁ σ₂ i orig hfind hstep
        rw [hled, hnext]
        intro t ht
        obtain ⟨u, hu, rfl⟩ := List.mem_map.mp ht
        have hid : (if u.id = i
            then ({ u with is_voided := true } : Transaction) else u).id = u.id := by
          split <;> rfl
        rw [hid]
        rcases List.mem_append.mp hu with h1 | h1
        · exact Nat.lt_succ_of_lt (ih.1 u h1)
        · rcases List.mem_singleton.mp h1 with rfl
          exact Nat.lt_succ_self _

end BlockStock
